import Mathlib

/-!
Verification of the `bingo` reflective binary deserialization engine
(`parser.go`).  The file shallowly embeds the decoder: the schema language
(struct fields with `len`/`size`/`elemsize`/`pad` tags) becomes a deep
datatype, the shared mutable `*Parser` (reader + byte order + offset)
becomes explicit state threaded through every operation, and panics
(`RaiseError`/`RaiseError2`) become an error result carrying the state at
the panic point (the Go `*Parser` is mutated in place, so its state at the
moment of the panic is what the recovering caller observes).

`parser.go` contains two revisions of the package.  The main model below
follows the later revision (`emitReadStruct`, `readSliceOfLength`,
`readFieldOfLimitedSize`, `readSliceFromBytes`, `parseRefTag`,
`calculatePadding`, `extractUint`).  The earlier revision's record-level
verification tail (`callVerify` and the `return p.callVerify(data)` ending
of its `EmitReadStruct`) is modelled separately in the `V1` namespace.

Recursion in the decoder is genuinely unbounded (a slice element that
consumes zero bytes makes Go's `readSliceFromBytes` loop forever), so the
recursive functions take a fuel parameter; exhausting it yields the
distinguished error `PError.outOfFuel`, which no Go execution produces.
-/

namespace Bingo

/-- Byte order selector (`binary.LittleEndian` / `binary.BigEndian`). -/
inductive Endian where
  | little
  | big
deriving DecidableEq, Repr

/-- Value of a `size` or `elemsize` struct tag: either the sentinel
`"<inf>"` (read to EOF) or a reference to a sibling field by name.
(The Go code also accepts `"Name()"` method resolvers; the model covers
the sibling-field form, which is the one the claims exercise.) -/
inductive SzTag where
  | inf
  | ref (s : String)
deriving DecidableEq, Repr

mutual
/-- Static shape of a Go destination type, restricted to the kinds the
claims exercise: unsigned/signed integers of `w` bytes, slices, and
nested structs.  (Fixed arrays behave exactly like the other statically
sized members of the fixed-layout path and appear in no claim, so they
are omitted.) -/
inductive Ty where
  | uint : Nat → Ty
  | int : Nat → Ty
  | slice : Ty → Ty
  | struct' : List Field → Ty
deriving Repr

/-- One struct field: name, `len` tag, `size` tag, `elemsize` tag,
`pad` tag (already parsed to a number, as `strconv.ParseUint` does),
and the field's type. -/
inductive Field where
  | mk : String → Option String → Option SzTag → Option SzTag → Option Nat → Ty → Field
deriving Repr
end

/-- Field name accessor. -/
def Field.name : Field → String
  | .mk n _ _ _ _ _ => n

/-- Accessor for the `len` tag. -/
def Field.lenTag : Field → Option String
  | .mk _ l _ _ _ _ => l

/-- Accessor for the `size` tag. -/
def Field.sizeTag : Field → Option SzTag
  | .mk _ _ s _ _ _ => s

/-- Accessor for the `elemsize` tag. -/
def Field.elemSizeTag : Field → Option SzTag
  | .mk _ _ _ e _ _ => e

/-- Accessor for the `pad` tag. -/
def Field.padTag : Field → Option Nat
  | .mk _ _ _ _ p _ => p

/-- Accessor for the field's type. -/
def Field.ty : Field → Ty
  | .mk _ _ _ _ _ t => t

/-- Runtime Go value produced by the decoder. -/
inductive Value where
  | uintV : Nat → Nat → Value
  | intV : Nat → Int → Value
  | sliceV : List Value → Value
  | structV : List Value → Value
deriving Repr

/-- The byte source reached through `p.r`: either a `bytes.Reader`
holding its remaining bytes, or an `io.LimitedReader` wrapping another
reader with a remaining budget `N` (an `int64` in Go, hence `Int`). -/
inductive Reader where
  | bytes (data : List Nat)
  | limited (inner : Reader) (n : Int)
deriving DecidableEq, Repr

/-- Read up to `n` bytes (the drained prefix and the advanced reader).
A `LimitedReader` with `N ≤ 0` yields nothing (Go returns `io.EOF`),
otherwise it trims the request to `N` and decrements `N` by the number
of bytes obtained, reading through the wrapped reader in place. -/
def Reader.take : Nat → Reader → List Nat × Reader
  | n, .bytes data => (data.take n, .bytes (data.drop n))
  | n, .limited inner lim =>
      let k := min n lim.toNat
      let got := (Reader.take k inner).1
      let inner' := (Reader.take k inner).2
      (got, .limited inner' (lim - got.length))

/-- Read all remaining bytes (`bytes.Buffer.ReadFrom`): everything from a
`bytes.Reader`, at most the remaining budget from a `LimitedReader`. -/
def Reader.takeAll : Reader → List Nat × Reader
  | .bytes data => (data, .bytes [])
  | .limited inner lim =>
      let got := (Reader.take lim.toNat inner).1
      let inner' := (Reader.take lim.toNat inner).2
      (got, .limited inner' (lim - got.length))

/-- The decoder state threaded through every call: the reader `p.r`, the
configured byte order, and the cumulative offset `p.offset` (a `uint`;
it only grows while a field is being read, so `Nat` is faithful).
The Go struct's remaining fields (context, depth, logger, tags, modes)
do not affect the modelled behavior. -/
structure Parser where
  r : Reader
  byteOrder : Endian
  offset : Nat
deriving DecidableEq, Repr

/-- Error taxonomy.  Each constructor corresponds to a family of
`RaiseError`/`RaiseError2` sites: `schemaError` for inconsistent or
unresolvable schema annotations, `truncatedInput` for a short
`io.ReadFull` in `EmitReadFull`, `readError` for a failed `binary.Read`
in `EmitReadFixedFast`, `sizeMismatch` for a bounded region not exactly
consumed, `fault` for an unrecovered Go runtime panic (e.g. `make` with
a negative length), and `outOfFuel` for exhausted model fuel (no Go
counterpart). -/
inductive PError where
  | schemaError
  | truncatedInput
  | readError
  | sizeMismatch
  | fault
  | outOfFuel
deriving DecidableEq, Repr

/-- Outcome of a decoder operation.  A panic in Go leaves the shared
`*Parser` in its mid-flight state, so the error case carries the state
at the panic point. -/
inductive Res (α : Type) where
  | ok : α → Parser → Res α
  | err : PError → Parser → Res α
deriving Repr

/-- The error of a result, if any. -/
def Res.errOf {α : Type} : Res α → Option PError
  | .ok _ _ => none
  | .err e _ => some e

/-- The parser state a result carries. -/
def Res.stateOf {α : Type} : Res α → Parser
  | .ok _ p => p
  | .err _ p => p

/-- Combine a byte list into a number per the byte order (the arithmetic
`encoding/binary` performs for a `w`-byte unsigned integer). -/
def word : Endian → List Nat → Nat
  | .little, bs => bs.foldr (fun b acc => b + 256 * acc) 0
  | .big, bs => bs.foldl (fun acc b => 256 * acc + b) 0

/-- Reinterpret a `w`-byte unsigned value as two's-complement signed. -/
def toSigned (w : Nat) (v : Nat) : Int :=
  if v < 2 ^ (8 * w - 1) then (v : Int) else (v : Int) - 2 ^ (8 * w)

/-- Reinterpret a `uint` (< 2^64) as a Go `int` (64-bit two's complement),
the `int(...)` conversion applied to `parseRefTag`'s result. -/
def toInt64 (u : Nat) : Int :=
  if u < 2 ^ 63 then (u : Int) else (u : Int) - 2 ^ 64

mutual
/-- Model of `encoding/binary`'s `sizeof` on a type: integer width, element size
times length for arrays, sum over struct fields; `none` (Go `-1`) as soon
as a slice occurs. -/
def sizeofTy : Ty → Option Nat
  | .uint w => some w
  | .int w => some w
  | .slice _ => none
  | .struct' fs => sizeofFields fs
termination_by structural t => t

/-- Sum of `sizeofTy` over struct fields (`none` if any is dynamic). -/
def sizeofFields : List Field → Option Nat
  | [] => some 0
  | .mk _ _ _ _ _ t :: rest =>
      match sizeofTy t, sizeofFields rest with
      | some a, some b => some (a + b)
      | _, _ => none
termination_by structural fs => fs
end

mutual
/-- The Go zero value of a type (fresh destinations come from
`reflect.New`, so every field starts at its zero value; in particular a
slice starts `nil`, i.e. empty). -/
def zeroVal : Ty → Value
  | .uint w => .uintV w 0
  | .int w => .intV w 0
  | .slice _ => .sliceV []
  | .struct' fs => .structV (zeroFields fs)
termination_by structural t => t

/-- Zero values of a field list. -/
def zeroFields : List Field → List Value
  | [] => []
  | .mk _ _ _ _ _ t :: rest => zeroVal t :: zeroFields rest
termination_by structural fs => fs
end

mutual
/-- Decode a fixed-layout value from a byte buffer, consuming from the
front (what `binary.Read` does after it has pulled `dataSize` bytes).
The `slice` case cannot occur inside a fixed read (its `sizeofTy` is
`none`, so `binary.Read` is never reached); it returns an empty slice. -/
def readFixedVal (e : Endian) : Ty → List Nat → Value × List Nat
  | .uint w, bs => (.uintV w (word e (bs.take w)), bs.drop w)
  | .int w, bs => (.intV w (toSigned w (word e (bs.take w))), bs.drop w)
  | .slice _, bs => (.sliceV [], bs)
  | .struct' fs, bs =>
      let r := readFixedFields e fs bs
      (.structV r.1, r.2)
termination_by structural t => t

/-- Decode consecutive fixed-layout struct fields. -/
def readFixedFields (e : Endian) : List Field → List Nat → List Value × List Nat
  | [], bs => ([], bs)
  | .mk _ _ _ _ _ t :: rest, bs =>
      let r := readFixedVal e t bs
      let rs := readFixedFields e rest r.2
      (r.1 :: rs.1, rs.2)
termination_by structural fs => fs
end

/-- Decode `n` consecutive fixed-layout values of type `t` (the one
`binary.Read` call a slice of fixed-size elements takes). -/
def readFixedN (e : Endian) (t : Ty) : Nat → List Nat → List Value × List Nat
  | 0, bs => ([], bs)
  | n + 1, bs =>
      let r := readFixedVal e t bs
      let rest := readFixedN e t n r.2
      (r.1 :: rest.1, rest.2)

/-- Model of `extractUint`: coerce a sibling field's value to Go `uint`
(`uint(val.Int())` / `uint(val.Uint())`, i.e. reduction mod 2^64);
`none` for a non-integer value (the caller raises a schema error). -/
def extractUint : Value → Option Nat
  | .uintV _ v => some (v % 2 ^ 64)
  | .intV _ v => some ((v % 2 ^ 64).toNat)
  | _ => none

/-- Model of `reflect.Value.FieldByName` over the record state: the first field
with the given name, if any. -/
def findField (rcd : List (Field × Value)) (name : String) : Option Value :=
  match rcd.find? (fun fv => fv.1.name = name) with
  | some fv => some fv.2
  | none => none

/-- Model of `parseRefTag` restricted to the sibling-field branch: look the tag
string up as a field of the enclosing record and coerce its value with
`extractUint`.  `none` stands for the `RaiseError2` schema errors
("field not found" / "not an integer"), which read no bytes. -/
def parseRefTag (rcd : List (Field × Value)) (key : String) : Option Nat :=
  match findField rcd key with
  | some v => extractUint v
  | none => none

/-- Model of `calculatePadding`: with a `pad` tag of `k` and `nbytesRead` bytes
consumed for the field, the number of discard bytes needed to reach the
next multiple of `k`.  (Go crashes with a division-by-zero runtime error
when `k = 0`; theorems therefore assume `0 < k`.) -/
def calculatePadding (padTag : Option Nat) (nbytesRead : Nat) : Nat :=
  match padTag with
  | none => 0
  | some k =>
      let m := nbytesRead % k
      if m ≠ 0 then k - m else 0

/-- Model of `EmitReadFull`: `io.ReadFull` the requested count; on a short read the
error is raised before `p.offset += uint(nbytes)` runs, so the offset is
unchanged even though the source was partially drained. -/
def emitReadFull (p : Parser) (n : Nat) : Res (List Nat) :=
  let got := (p.r.take n).1
  let r' := (p.r.take n).2
  if got.length = n then
    .ok got { p with r := r', offset := p.offset + n }
  else
    .err .truncatedInput { p with r := r' }

/-- Model of `EmitReadNBytes`: allocate and `EmitReadFull`. -/
def emitReadNBytes (p : Parser) (n : Nat) : Res (List Nat) :=
  emitReadFull p n

/-- Model of `EmitSkipNBytes`: discards by reading (`EmitReadNBytes`). -/
def emitSkipNBytes (p : Parser) (n : Nat) : Res (List Nat) :=
  emitReadNBytes p n

/-- Model of `EmitReadFixedFast`: `binary.Read` pulls exactly `size` bytes; on a
short read `RaiseError2` fires before `p.offset += uint(size)`, so the
offset is unchanged.  Returns the raw bytes; callers decode them with
`readFixedVal`. -/
def emitReadFixedFast (p : Parser) (size : Nat) : Res (List Nat) :=
  let got := (p.r.take size).1
  let r' := (p.r.take size).2
  if got.length = size then
    .ok got { p with r := r', offset := p.offset + size }
  else
    .err .readError { p with r := r' }

/-- Model of `EmitReadAll`: read the source to exhaustion; never fails on the
modelled readers and advances the offset by the count obtained. -/
def emitReadAll (p : Parser) : Res (List Nat) :=
  let got := (p.r.takeAll).1
  let r' := (p.r.takeAll).2
  .ok got { p with r := r', offset := p.offset + got.length }

/-- Fresh record state for a struct's fields: every field at its zero
value (`reflect.New` zeroes the destination). -/
def initRec (fs : List Field) : List (Field × Value) :=
  fs.map fun fd => (fd, zeroVal fd.ty)

mutual
/-- Model of `emitReadStruct` (the Struct Walker): sanity-check that the
destination is a struct, then process its fields in order against a
fresh zero-valued record, returning the populated struct value. -/
def emitReadStruct : Nat → Parser → Ty → Res Value
  | 0, p, _ => .err .outOfFuel p
  | fuel + 1, p, t =>
      match t with
      | .struct' fs =>
          match readFields fuel p (initRec fs) 0 with
          | .ok rcd q => .ok (.structV (rcd.map (fun fv => fv.2))) q
          | .err e q => .err e q
      | _ => .err .schemaError p

termination_by structural fuel p t => fuel
/-- The field loop of `emitReadStruct`: for each index in order, read
the field and carry the updated record state forward. -/
def readFields : Nat → Parser → List (Field × Value) → Nat → Res (List (Field × Value))
  | 0, p, _, _ => .err .outOfFuel p
  | fuel + 1, p, rcd, i =>
      if i < rcd.length then
        match readField fuel p rcd i with
        | .ok rcd' q => readFields fuel q rcd' (i + 1)
        | .err e q => .err e q
      else
        .ok rcd p

termination_by structural fuel p rcd i => fuel
/-- One iteration of the field loop: remember the offset, dispatch on
the field's kind and tags, store the decoded value, then consume any
padding the `pad` tag demands (`calculatePadding` over the bytes this
field consumed, applied via `EmitSkipNBytes` when nonzero). -/
def readField : Nat → Parser → List (Field × Value) → Nat → Res (List (Field × Value))
  | 0, p, _, _ => .err .outOfFuel p
  | fuel + 1, p, rcd, i =>
      match rcd[i]? with
      | none => .ok rcd p
      | some (fd, cur) =>
          let offset0 := p.offset
          match dispatchField fuel p rcd fd cur with
          | .err e q => .err e q
          | .ok v q =>
              let rcd' := rcd.set i (fd, v)
              let padding := calculatePadding fd.padTag (q.offset - offset0)
              if padding > 0 then
                match emitSkipNBytes q padding with
                | .err e q2 => .err e q2
                | .ok _ q2 => .ok rcd' q2
              else
                .ok rcd' q

termination_by structural fuel p rcd i => fuel
/-- The kind/tag dispatch of `emitReadStruct` for one field (the
`switch fieldval.Kind()` statement).  Structs go through
`readFieldOfLimitedSize` with the `size` tag (a `len` tag on a struct is
ignored).  Slices first reject the combination of `len` and `size` tags
with a schema error before any byte is read, then follow the `len`,
`size`, or untagged path.  Remaining kinds take the fixed-layout path,
failing with "Unhandled type" when the static size is undetermined. -/
def dispatchField : Nat → Parser → List (Field × Value) → Field → Value → Res Value
  | 0, p, _, _, _ => .err .outOfFuel p
  | fuel + 1, p, rcd, fd, cur =>
      match fd.ty with
      | .struct' _ => readFieldOfLimitedSize fuel p fd.sizeTag fd.ty cur rcd
      | .slice et =>
          if fd.lenTag.isSome && fd.sizeTag.isSome then
            .err .schemaError p
          else
            match fd.lenTag with
            | some key =>
                match parseRefTag rcd key with
                | none => .err .schemaError p
                | some u =>
                    if toInt64 u > 0 then
                      readSliceOfLength fuel p et (toInt64 u).toNat fd.elemSizeTag rcd
                    else
                      .ok cur p
            | none =>
                match fd.sizeTag with
                | some .inf =>
                    match emitReadAll p with
                    | .err e q => .err e q
                    | .ok buf q =>
                        if buf.length > 0 then readSliceFromBytes fuel q et buf
                        else .ok cur q
                | some (.ref key) =>
                    match parseRefTag rcd key with
                    | none => .err .schemaError p
                    | some u =>
                        if toInt64 u < 0 then
                          .err .fault p
                        else
                          match emitReadNBytes p (toInt64 u).toNat with
                          | .err e q => .err e q
                          | .ok buf q =>
                              if buf.length > 0 then readSliceFromBytes fuel q et buf
                              else .ok cur q
                | none =>
                    match cur with
                    | .sliceV vs =>
                        match sizeofTy et with
                        | some s =>
                            match emitReadFixedFast p (s * vs.length) with
                            | .ok buf q =>
                                .ok (.sliceV (readFixedN p.byteOrder et vs.length buf).1) q
                            | .err e q => .err e q
                        | none => .ok cur p
                    | _ => .ok cur p
      | _ =>
          match sizeofTy fd.ty with
          | some s =>
              match emitReadFixedFast p s with
              | .ok buf q => .ok (readFixedVal p.byteOrder fd.ty buf).1 q
              | .err e q => .err e q
          | none => .err .schemaError p

termination_by structural fuel p rcd fd cur => fuel
/-- Model of `readSliceOfLength`: allocate a slice of the resolved length; if the
element type is fixed-size, read `elemSize * length` bytes in one
`binary.Read`; otherwise decode the elements one at a time via
`readFieldOfLimitedSize` with the `elemsize` tag. -/
def readSliceOfLength : Nat → Parser → Ty → Nat → Option SzTag → List (Field × Value) → Res Value
  | 0, p, _, _, _, _ => .err .outOfFuel p
  | fuel + 1, p, et, n, esz, rcd =>
      match sizeofTy et with
      | some s =>
          match emitReadFixedFast p (s * n) with
          | .ok buf q => .ok (.sliceV (readFixedN p.byteOrder et n buf).1) q
          | .err e q => .err e q
      | none =>
          match lenElemsLoop fuel p et n esz rcd with
          | .ok vs q => .ok (.sliceV vs) q
          | .err e q => .err e q

termination_by structural fuel p et n esz rcd => fuel
/-- The per-element loop of `readSliceOfLength`'s variable-size path. -/
def lenElemsLoop : Nat → Parser → Ty → Nat → Option SzTag → List (Field × Value) → Res (List Value)
  | 0, p, _, _, _, _ => .err .outOfFuel p
  | fuel + 1, p, et, n, esz, rcd =>
      match n with
      | 0 => .ok [] p
      | m + 1 =>
          match readFieldOfLimitedSize fuel p esz et (zeroVal et) rcd with
          | .err e q => .err e q
          | .ok v q =>
              match lenElemsLoop fuel q et m esz rcd with
              | .err e q2 => .err e q2
              | .ok vs q2 => .ok (v :: vs) q2

termination_by structural fuel p et n esz rcd => fuel
/-- Model of `readFieldOfLimitedSize`: with no tag, decode the value directly.
With a tag, resolve the byte budget; zero means return with the value
untouched.  Otherwise swap `p.r` for an `io.LimitedReader` over it,
run the sub-decode, require the budget be exactly consumed
(`limit_r.N != 0` fails with the consistency error), and re-install the
underlying reader (which the bounded view advanced in place).  Note the
restoration only happens on the success path: a panic inside the
sub-decode, or the failed exact-consumption check, propagates with the
restricted view still installed.  On success the sub-decode always
leaves the `limited` wrapper in place (every primitive read preserves
it), so the final catch-all branch is unreachable and is marked with
the model-only `fault` error. -/
def readFieldOfLimitedSize : Nat → Parser → Option SzTag → Ty → Value → List (Field × Value) → Res Value
  | 0, p, _, _, _, _ => .err .outOfFuel p
  | fuel + 1, p, tagv, t, cur, rcd =>
      match tagv with
      | none => emitReadStruct fuel p t
      | some .inf => .err .schemaError p
      | some (.ref key) =>
          match parseRefTag rcd key with
          | none => .err .schemaError p
          | some u =>
              let size := toInt64 u
              if size = 0 then
                .ok cur p
              else
                match emitReadStruct fuel { p with r := .limited p.r size } t with
                | .err e q => .err e q
                | .ok v q =>
                    match q.r with
                    | .limited inner n =>
                        if n = 0 then .ok v { q with r := inner }
                        else .err .sizeMismatch q
                    | _ => .err .fault q

termination_by structural fuel p tagv t cur rcd => fuel
/-- Model of `readSliceFromBytes`: a `[]byte` destination takes the buffer
directly (no reader involvement); any other element type goes through
the buffered element loop `readSliceFromBytesVar`. -/
def readSliceFromBytes : Nat → Parser → Ty → List Nat → Res Value
  | 0, p, _, _ => .err .outOfFuel p
  | fuel + 1, p, et, buf =>
      match et with
      | .uint 1 => .ok (.sliceV (buf.map fun b => .uintV 1 b)) p
      | _ => readSliceFromBytesVar fuel p et buf

termination_by structural fuel p et buf => fuel
/-- The non-`[]byte` path of `readSliceFromBytes`: save `p.r`/`p.offset`,
point the parser at a fresh `bytes.Reader` over the buffer, decode
elements until the buffer's size is covered, fail with the consistency
error (`SizeMismatch`) if the tally differs from the region size, and
restore the saved reader and offset — only on the success path; an
element decode that panics propagates without restoring. -/
def readSliceFromBytesVar : Nat → Parser → Ty → List Nat → Res Value
  | 0, p, _, _ => .err .outOfFuel p
  | fuel + 1, p, et, buf =>
      let saved_r := p.r
      let saved_off := p.offset
      match sliceLoop fuel { p with r := .bytes buf } et buf.length 0 [] with
      | .err e q => .err e q
      | .ok (vs, bytesRead) q =>
          if bytesRead = buf.length then
            .ok (.sliceV vs) { q with r := saved_r, offset := saved_off }
          else
            .err .sizeMismatch q

termination_by structural fuel p et buf => fuel
/-- The element loop of `readSliceFromBytes`: while the tally is short
of the region size, decode one element (a recursive `emitReadStruct`)
and add the offset delta to the tally. -/
def sliceLoop : Nat → Parser → Ty → Nat → Nat → List Value → Res (List Value × Nat)
  | 0, p, _, _, _, _ => .err .outOfFuel p
  | fuel + 1, p, et, size, bytesRead, acc =>
      if bytesRead < size then
        let off0 := p.offset
        match emitReadStruct fuel p et with
        | .err e q => .err e q
        | .ok v q => sliceLoop fuel q et size (bytesRead + (q.offset - off0)) (acc ++ [v])
      else
        .ok (acc, bytesRead) p
termination_by structural fuel p et size bytesRead acc => fuel
end

/-- The repository's canonical test buffer
`[0x0A,0x00,0x01,0x00,'a','b','c','d','e','f','g','h']` (`someData`). -/
def exBuffer : List Nat := [10, 0, 1, 0, 97, 98, 99, 100, 101, 102, 103, 104]

/-- Schema `{Length: u16; Data: []byte len:"Length"}` (the `TestSliceByte`
shape). -/
def exSchemaC1 : Ty := .struct' [
  .mk "Length" none none none none (.uint 2),
  .mk "Data" (some "Length") none none none (.slice (.uint 1))]

/-- A variable-size element type: `{L: u8; D: []byte len:"L"}`. -/
def exVarElem : Ty := .struct' [
  .mk "L" none none none none (.uint 1),
  .mk "D" (some "L") none none none (.slice (.uint 1))]

/-- Schema `{Size: u8; Elems: []exVarElem size:"Size"}`: a `size`-driven
sequence of variable-size elements. -/
def exSchemaC3 : Ty := .struct' [
  .mk "Size" none none none none (.uint 1),
  .mk "Elems" none (some (.ref "Size")) none none (.slice exVarElem)]

/-- Schema whose nested-record field carries both a `len` and a `size`
tag: `{N: u8; Sub: struct{A: u8} len:"N" size:"N"}`. -/
def exSchemaC4 : Ty := .struct' [
  .mk "N" none none none none (.uint 1),
  .mk "Sub" (some "N") (some (.ref "N")) none none (.struct' [.mk "A" none none none none (.uint 1)])]

/-- Schema `{N: u8; Sub: struct{A: u32} size:"N"}`: the nested record
needs four bytes while the bounded view is held to `N`. -/
def exSchemaC6 : Ty := .struct' [
  .mk "N" none none none none (.uint 1),
  .mk "Sub" none (some (.ref "N")) none none (.struct' [.mk "A" none none none none (.uint 4)])]

/-- Schema `{Data: []u16}`: a dynamically-sized sequence with neither a
`len` nor a `size` annotation (the `TestEmptySlice` shape). -/
def exSchemaC7 : Ty := .struct' [.mk "Data" none none none none (.slice (.uint 2))]

namespace V1

/-- How the earlier revision's destination type relates to the
`Verifier` interface (`Verify(*Parser) error`): it implements it, it has
no `Verify` method at all, or it has a `Verify` method with a different
signature. -/
inductive VerifyHook where
  | wellTyped (f : Value → Option PError)
  | absent
  | wrongSig

/-- The earlier revision's `callVerify`: a type implementing `Verifier`
has its `Verify` invoked on the decoded record and the result returned;
a type with no `Verify` passes; a type whose `Verify` has the wrong
signature raises the "incorrect signature" schema error. -/
def callVerify (h : VerifyHook) (v : Value) : Option PError :=
  match h with
  | .wellTyped f => f v
  | .absent => none
  | .wrongSig => some .schemaError

/-- The tail of the earlier revision's `EmitReadStruct`: after the field
loop produced `body` (the decoded record, or the error that aborted it),
the function ends with `return p.callVerify(data)`, so a successful
field pass is followed by the whole-record verification and its failure
becomes the decode's error. -/
def emitReadStructEnd (h : VerifyHook) (body : Res Value) : Res Value :=
  match body with
  | .ok v p =>
      match callVerify h v with
      | none => .ok v p
      | some e => .err e p
  | .err e p => .err e p

end V1

theorem Reader.take_zero (r : Reader) : Reader.take 0 r = ([], r) := by
  induction r with
  | bytes data => simp [Reader.take]
  | limited inner lim ih => simp [Reader.take, ih]

theorem calculatePadding_zero (pt : Option Nat) : calculatePadding pt 0 = 0 := by
  cases pt <;> simp [calculatePadding]

theorem calculatePadding_eq (k c : Nat) (hk : 0 < k) :
    calculatePadding (some k) c = (k - c % k) % k := by
  have hlt : c % k < k := Nat.mod_lt c hk
  simp only [calculatePadding]
  by_cases h0 : c % k = 0
  · simp [h0, Nat.mod_self]
  · simp only [h0, ne_eq, not_false_eq_true, if_true]
    rw [Nat.mod_eq_of_lt (show k - c % k < k by omega)]

theorem toInt64_of_neg (v : Int) (h1 : -(2 ^ 63) ≤ v) (h2 : v < 0) :
    toInt64 ((v % 2 ^ 64).toNat) = v := by
  have p63 : ((2 : Int) ^ 63) = 9223372036854775808 := by norm_num
  have p64 : ((2 : Int) ^ 64) = 18446744073709551616 := by norm_num
  have p63n : ((2 : Nat) ^ 63) = 9223372036854775808 := by norm_num
  rw [p63] at h1
  simp only [toInt64, p63n, p64]
  split <;> omega

/-- C1: decoding `[0x0A,0x00,0x01,0x00,'a'..'h']` in little-endian order
into `{Length: u16; Data: []byte len:"Length"}` sets `Length` to 10,
sets `Data` to the next ten bytes `0x01, 0x00, 'a'..'h'` in order, and
leaves the cursor offset at 12 (with the source fully drained). -/
theorem c1_length_prefixed_byte_sequence :
    emitReadStruct 20 ⟨.bytes exBuffer, .little, 0⟩ exSchemaC1 =
      .ok (.structV [.uintV 2 10,
        .sliceV [.uintV 1 1, .uintV 1 0, .uintV 1 97, .uintV 1 98, .uintV 1 99,
          .uintV 1 100, .uintV 1 101, .uintV 1 102, .uintV 1 103, .uintV 1 104]])
        ⟨.bytes [], .little, 12⟩ := rfl

/-- C9: when an exact-size read comes up short, both `EmitReadFull` and
`binary.Read` inside `EmitReadFixedFast` raise before the offset update
runs, so the reported offset is unchanged even though the source was
partially drained. -/
theorem c9_short_read_offset_unchanged (p : Parser) (n : Nat)
    (h : ((p.r.take n).1).length ≠ n) :
    emitReadFull p n = .err .truncatedInput { p with r := (p.r.take n).2 } ∧
      (emitReadFull p n).stateOf.offset = p.offset ∧
      emitReadFixedFast p n = .err .readError { p with r := (p.r.take n).2 } ∧
      (emitReadFixedFast p n).stateOf.offset = p.offset := by
  simp [emitReadFull, emitReadFixedFast, Res.stateOf, h]

/-- Witness for C9 at a one-byte source asked for two bytes. -/
theorem c9_short_read_offset_unchanged_witness :
    ((((⟨.bytes [1], .little, 7⟩ : Parser).r.take 2).1).length ≠ 2) ∧
      emitReadFull ⟨.bytes [1], .little, 7⟩ 2 =
        .err .truncatedInput ⟨.bytes [], .little, 7⟩ ∧
      (emitReadFull ⟨.bytes [1], .little, 7⟩ 2).stateOf.offset = 7 :=
  ⟨by decide,
    (c9_short_read_offset_unchanged ⟨.bytes [1], .little, 7⟩ 2 (by decide)).1,
    (c9_short_read_offset_unchanged ⟨.bytes [1], .little, 7⟩ 2 (by decide)).2.1⟩

/-- C8: after the field loop of the first revision's `EmitReadStruct`
finishes successfully, a `Verify` hook with the expected
`Verify(*Parser) error` signature is invoked and a non-nil result aborts
the decode with that error, a nil result lets the decode succeed, and a
`Verify` method with an incompatible signature aborts the decode with
the schema error instead of being silently ignored. -/
theorem c8_record_verify_hook (fv : Value → Option PError) (v : Value) (p : Parser) :
    (∀ e, fv v = some e →
      V1.emitReadStructEnd (.wellTyped fv) (.ok v p) = .err e p) ∧
    (fv v = none → V1.emitReadStructEnd (.wellTyped fv) (.ok v p) = .ok v p) ∧
    V1.emitReadStructEnd .wrongSig (.ok v p) = .err .schemaError p := by
  refine ⟨fun e he => ?_, fun hn => ?_, rfl⟩ <;>
    simp [V1.emitReadStructEnd, V1.callVerify, *]

/-- Witness for C8: a failing well-typed hook aborts with its error, and
a wrong-signature hook aborts with the schema error. -/
theorem c8_record_verify_hook_witness :
    V1.emitReadStructEnd (.wellTyped fun _ => some .readError)
        (.ok (.structV []) ⟨.bytes [], .little, 0⟩) =
      .err .readError ⟨.bytes [], .little, 0⟩ ∧
    V1.emitReadStructEnd .wrongSig (.ok (.structV []) ⟨.bytes [], .little, 0⟩) =
      .err .schemaError ⟨.bytes [], .little, 0⟩ :=
  ⟨(c8_record_verify_hook (fun _ => some .readError) (.structV []) ⟨.bytes [], .little, 0⟩).1
      .readError rfl,
    (c8_record_verify_hook (fun _ => some .readError) (.structV []) ⟨.bytes [], .little, 0⟩).2.2⟩

/-- C3 counterexample: a `size`-driven sequence of variable-size elements
whose two-byte region holds one-and-a-half elements fails inside the
partial element's fixed read with `readError` (a truncated `binary.Read`),
not with the `SizeMismatch` consistency error the claim names. -/
theorem c3_nondivisible_region_error_kind :
    (emitReadStruct 20 ⟨.bytes [2, 2, 0], .little, 0⟩ exSchemaC3).errOf =
      some .readError ∧ PError.readError ≠ PError.sizeMismatch :=
  ⟨rfl, by decide⟩

/-- C4 counterexample: a nested-record field carrying both a `len` and a
`size` tag does not fail — the struct dispatch consults only the `size`
tag, so the decode succeeds and consumes the field's bytes, refuting the
claim for non-sequence fields. -/
theorem c4_both_tags_nested_record_decodes :
    emitReadStruct 20 ⟨.bytes [1, 5], .little, 0⟩ exSchemaC4 =
      .ok (.structV [.uintV 1 1, .structV [.uintV 1 5]]) ⟨.bytes [], .little, 2⟩ := rfl

/-- C6 counterexample: when the bounded sub-decode fails (the nested
record needs four bytes but the view is held to three), the error
propagates with the restricted view still installed as the parser's
reader — the original cursor is not restored on the error path. -/
theorem c6_error_leaves_restricted_view :
    emitReadStruct 20 ⟨.bytes [3, 0, 0, 0], .little, 0⟩ exSchemaC6 =
      .err .readError ⟨.limited (.bytes []) 0, .little, 1⟩ ∧
    Reader.limited (.bytes []) 0 ≠ Reader.bytes [] :=
  ⟨rfl, by decide⟩

theorem readSliceFromBytesVar_ok (f : Nat) (p q : Parser) (et : Ty) (buf : List Nat)
    (v : Value) (h : readSliceFromBytesVar f p et buf = .ok v q) :
    q.r = p.r ∧ q.offset = p.offset ∧ ∃ vs, v = .sliceV vs := by
  cases f with
  | zero => simp [readSliceFromBytesVar] at h
  | succ g =>
      simp only [readSliceFromBytesVar] at h
      cases hsl : sliceLoop g { p with r := .bytes buf } et buf.length 0 [] with
      | err e q2 => rw [hsl] at h; simp at h
      | ok pr q2 =>
          obtain ⟨vs, br⟩ := pr
          rw [hsl] at h
          by_cases hbr : br = buf.length
          · simp only [hbr, if_true] at h
            injection h with hv hq
            rw [← hq]
            exact ⟨rfl, rfl, vs, hv.symm⟩
          · simp only [hbr, if_false] at h
            simp at h

theorem readSliceFromBytes_ok_of_varsize (f : Nat) (p q : Parser) (et : Ty)
    (buf : List Nat) (v : Value) (hvar : sizeofTy et = none)
    (h : readSliceFromBytes f p et buf = .ok v q) :
    q.r = p.r ∧ q.offset = p.offset ∧ ∃ vs, v = .sliceV vs := by
  cases f with
  | zero => simp [readSliceFromBytes] at h
  | succ g =>
      cases et with
      | uint w => simp [sizeofTy] at hvar
      | int w => simp [sizeofTy] at hvar
      | slice et2 =>
          simp only [readSliceFromBytes] at h
          exact readSliceFromBytesVar_ok g p q (.slice et2) buf v h
      | struct' fs =>
          simp only [readSliceFromBytes] at h
          exact readSliceFromBytesVar_ok g p q (.struct' fs) buf v h

/-- C2: a sequence field whose `len` tag resolves to zero consumes no
bytes (the parser state, offset included, is unchanged across the field)
and leaves the sequence empty, for either byte order (the byte order in
`p` is arbitrary). -/
theorem c2_len_ref_zero_consumes_nothing
    (f i : Nat) (p : Parser) (rcd : List (Field × Value))
    (nm key : String) (esz : Option SzTag) (pt : Option Nat) (et : Ty)
    (hget : rcd[i]? = some (.mk nm (some key) none esz pt (.slice et), .sliceV []))
    (href : parseRefTag rcd key = some 0) :
    readField (f + 2) p rcd i =
      .ok (rcd.set i (.mk nm (some key) none esz pt (.slice et), .sliceV [])) p := by
  have h0 : toInt64 0 = 0 := by norm_num [toInt64]
  have hd : dispatchField (f + 1) p rcd
      (.mk nm (some key) none esz pt (.slice et)) (.sliceV []) = .ok (.sliceV []) p := by
    simp [dispatchField, Field.ty, Field.lenTag, Field.sizeTag, href, h0]
  simp [readField, hget, hd, Field.padTag, calculatePadding_zero]

/-- Witness for C2: `{Length: u16 = 0; Data: []byte len:"Length"}` in
big-endian order decodes the `Data` field without touching the parser. -/
theorem c2_len_ref_zero_witness :
    parseRefTag
        [(Field.mk "Length" none none none none (.uint 2), .uintV 2 0),
          (Field.mk "Data" (some "Length") none none none (.slice (.uint 1)), .sliceV [])]
        "Length" = some 0 ∧
    readField 2 ⟨.bytes [7, 7], .big, 3⟩
        [(Field.mk "Length" none none none none (.uint 2), .uintV 2 0),
          (Field.mk "Data" (some "Length") none none none (.slice (.uint 1)), .sliceV [])] 1 =
      .ok [(Field.mk "Length" none none none none (.uint 2), .uintV 2 0),
          (Field.mk "Data" (some "Length") none none none (.slice (.uint 1)), .sliceV [])]
        ⟨.bytes [7, 7], .big, 3⟩ :=
  ⟨rfl, c2_len_ref_zero_consumes_nothing 0 1 ⟨.bytes [7, 7], .big, 3⟩ _ "Data" "Length"
    none none (.uint 1) rfl rfl⟩

/-- C4 (amended): a sequence (slice) field carrying both a `len` and a
`size` tag fails with the schema error before any byte of the field is
read — the parser state, offset included, is unchanged. -/
theorem c4_slice_both_tags_schema_error
    (f i : Nat) (p : Parser) (rcd : List (Field × Value)) (nm lk : String)
    (st : SzTag) (esz : Option SzTag) (pt : Option Nat) (et : Ty) (cur : Value)
    (hget : rcd[i]? = some (.mk nm (some lk) (some st) esz pt (.slice et), cur)) :
    readField (f + 2) p rcd i = .err .schemaError p := by
  have hd : dispatchField (f + 1) p rcd
      (.mk nm (some lk) (some st) esz pt (.slice et)) cur = .err .schemaError p := by
    simp [dispatchField, Field.ty, Field.lenTag, Field.sizeTag]
  simp [readField, hget, hd]

/-- Witness for C4's amended statement at a concrete slice field. -/
theorem c4_slice_both_tags_witness :
    readField 2 ⟨.bytes [1, 2], .little, 5⟩
        [(Field.mk "Data" (some "N") (some (.ref "N")) none none (.slice (.uint 1)), .sliceV [])] 0 =
      .err .schemaError ⟨.bytes [1, 2], .little, 5⟩ :=
  c4_slice_both_tags_schema_error 0 0 ⟨.bytes [1, 2], .little, 5⟩ _ "Data" "N" (.ref "N")
    none none (.uint 1) (.sliceV []) rfl

/-- C5: with a `pad` tag of modulus `k > 0`, after the field's dispatch
consumed `c` bytes, the cursor advances by exactly `(k - c % k) % k`
additional discard bytes (in particular, zero when `c` is already a
multiple of `k`, in which case no skip read is issued at all). -/
theorem c5_pad_to_formula
    (f i c k : Nat) (p q : Parser) (rcd : List (Field × Value)) (fd : Field) (cur v : Value)
    (hget : rcd[i]? = some (fd, cur))
    (hdisp : dispatchField f p rcd fd cur = .ok v q)
    (hoff : q.offset = p.offset + c)
    (hpad : fd.padTag = some k) (hk : 0 < k)
    (hav : ((q.r.take ((k - c % k) % k)).1).length = (k - c % k) % k) :
    readField (f + 1) p rcd i =
      .ok (rcd.set i (fd, v))
        { q with r := (q.r.take ((k - c % k) % k)).2,
                 offset := p.offset + c + (k - c % k) % k } := by
  have hc : q.offset - p.offset = c := by omega
  have hcp : calculatePadding fd.padTag (q.offset - p.offset) = (k - c % k) % k := by
    rw [hpad, hc, calculatePadding_eq k c hk]
  by_cases hz : (k - c % k) % k = 0
  · simp only [readField, hget, hdisp, hcp, hz, gt_iff_lt, Nat.lt_irrefl, if_false,
      Reader.take_zero, Nat.add_zero]
    rw [← hoff]
  · have hgt : 0 < (k - c % k) % k := Nat.pos_of_ne_zero hz
    simp only [readField, hget, hdisp, hcp, gt_iff_lt, hgt, if_true,
      emitSkipNBytes, emitReadNBytes, emitReadFull, hav, if_pos rfl]
    rw [hoff]

/-- Witness for C5: a two-byte field with `pad:"4"` consumes two discard
bytes to reach the next multiple of four. -/
theorem c5_pad_to_witness :
    0 < 4 ∧
    readField 2 ⟨.bytes [1, 0, 9, 9, 9], .little, 0⟩
        [(Field.mk "A" none none none (some 4) (.uint 2), .uintV 2 0)] 0 =
      .ok [(Field.mk "A" none none none (some 4) (.uint 2), .uintV 2 1)]
        ⟨.bytes [9], .little, 4⟩ :=
  ⟨by decide,
    c5_pad_to_formula 1 0 2 4 ⟨.bytes [1, 0, 9, 9, 9], .little, 0⟩
      ⟨.bytes [9, 9, 9], .little, 2⟩ _ (Field.mk "A" none none none (some 4) (.uint 2))
      (.uintV 2 0) (.uintV 2 1) rfl rfl rfl rfl (by decide) rfl⟩

/-- C7 (amended): a sequence field with neither a `len` nor a `size`
annotation is not an error: the fixed-layout read is attempted on the
field's current (empty) value, whose `binary.Size` is zero for a
fixed-size element type and negative (result ignored) for a
variable-size one, so the decode succeeds, consumes zero bytes, and
leaves the field empty. -/
theorem c7_untagged_slice_no_error
    (f i : Nat) (p : Parser) (rcd : List (Field × Value)) (nm : String)
    (esz : Option SzTag) (pt : Option Nat) (et : Ty)
    (hget : rcd[i]? = some (.mk nm none none esz pt (.slice et), .sliceV [])) :
    readField (f + 2) p rcd i =
      .ok (rcd.set i (.mk nm none none esz pt (.slice et), .sliceV [])) p := by
  have hd : dispatchField (f + 1) p rcd
      (.mk nm none none esz pt (.slice et)) (.sliceV []) = .ok (.sliceV []) p := by
    cases hs : sizeofTy et with
    | none => simp [dispatchField, Field.ty, Field.lenTag, Field.sizeTag, hs]
    | some s =>
        simp [dispatchField, Field.ty, Field.lenTag, Field.sizeTag, hs,
          emitReadFixedFast, Reader.take_zero, readFixedN]
  simp [readField, hget, hd, Field.padTag, calculatePadding_zero]

/-- Witness for C7's amended statement: the untagged `[]u16` field of
`exSchemaC7` decodes to the empty sequence with the parser untouched. -/
theorem c7_untagged_slice_no_error_witness :
    readField 2 ⟨.bytes exBuffer, .little, 0⟩
        [(Field.mk "Data" none none none none (.slice (.uint 2)), .sliceV [])] 0 =
      .ok [(Field.mk "Data" none none none none (.slice (.uint 2)), .sliceV [])]
        ⟨.bytes exBuffer, .little, 0⟩ :=
  c7_untagged_slice_no_error 0 0 ⟨.bytes exBuffer, .little, 0⟩ _ "Data" none none
    (.uint 2) rfl

/-- C10: a `len` tag resolving through a signed sibling field holding a
negative value does not fail: `extractUint` coerces the value through
`uint` and `int(...)` brings it back negative, the strictly-positive
test fails, and the field is left as an empty sequence with zero bytes
consumed (the parser state is unchanged). -/
theorem c10_negative_length_ref_empty
    (f i w : Nat) (p : Parser) (rcd : List (Field × Value)) (nm key : String)
    (esz : Option SzTag) (pt : Option Nat) (et : Ty) (v : Int)
    (hget : rcd[i]? = some (.mk nm (some key) none esz pt (.slice et), .sliceV []))
    (hsib : findField rcd key = some (.intV w v))
    (hlo : -(2 ^ 63) ≤ v) (hneg : v < 0) :
    readField (f + 2) p rcd i =
      .ok (rcd.set i (.mk nm (some key) none esz pt (.slice et), .sliceV [])) p := by
  have href : parseRefTag rcd key = some ((v % 2 ^ 64).toNat) := by
    simp [parseRefTag, hsib, extractUint]
  have hval : toInt64 ((v % 2 ^ 64).toNat) = v := toInt64_of_neg v hlo hneg
  have hngt : ¬ 0 < toInt64 ((v % 18446744073709551616).toNat) := by
    have he : (18446744073709551616 : Int) = 2 ^ 64 := by norm_num
    rw [he, hval]; omega
  have hd : dispatchField (f + 1) p rcd
      (.mk nm (some key) none esz pt (.slice et)) (.sliceV []) = .ok (.sliceV []) p := by
    simp [dispatchField, Field.ty, Field.lenTag, Field.sizeTag, href, hngt]
  simp [readField, hget, hd, Field.padTag, calculatePadding_zero]

/-- Witness for C10: an `int8` sibling holding `-1` leaves the sequence
empty without error or byte consumption. -/
theorem c10_negative_length_ref_witness :
    findField
        [(Field.mk "N" none none none none (.int 1), .intV 1 (-1)),
          (Field.mk "Data" (some "N") none none none (.slice (.uint 1)), .sliceV [])]
        "N" = some (.intV 1 (-1)) ∧
    readField 2 ⟨.bytes [9], .little, 0⟩
        [(Field.mk "N" none none none none (.int 1), .intV 1 (-1)),
          (Field.mk "Data" (some "N") none none none (.slice (.uint 1)), .sliceV [])] 1 =
      .ok [(Field.mk "N" none none none none (.int 1), .intV 1 (-1)),
          (Field.mk "Data" (some "N") none none none (.slice (.uint 1)), .sliceV [])]
        ⟨.bytes [9], .little, 0⟩ :=
  ⟨rfl, c10_negative_length_ref_empty 0 1 1 ⟨.bytes [9], .little, 0⟩ _ "Data" "N" none none
    (.uint 1) (-1) rfl rfl (by norm_num) (by norm_num)⟩

/-- C6 (amended): the bounded sub-decode swaps in a restricted view of
the cursor; when the sub-decode succeeds and the exact-consumption check
passes, the view has exactly zero budget left and the advanced
underlying cursor is re-installed.  (On error the restricted view stays
installed; see the counterexample.) -/
theorem c6_success_restores_cursor
    (f : Nat) (p p' : Parser) (t : Ty) (cur v : Value) (rcd : List (Field × Value))
    (key : String) (u : Nat)
    (href : parseRefTag rcd key = some u)
    (hnz : ¬ toInt64 u = 0)
    (hok : readFieldOfLimitedSize (f + 1) p (some (.ref key)) t cur rcd = .ok v p') :
    ∃ qq : Parser,
      emitReadStruct f { p with r := .limited p.r (toInt64 u) } t = .ok v qq ∧
        qq.r = .limited p'.r 0 ∧ p'.offset = qq.offset ∧ p'.byteOrder = qq.byteOrder := by
  simp only [readFieldOfLimitedSize, href] at hok
  rw [if_neg hnz] at hok
  split at hok
  · exact absurd hok (by simp)
  · rename_i v0 q0 heq
    split at hok
    · rename_i inner n hreq
      by_cases hn : n = 0
      · rw [if_pos hn] at hok
        injection hok with hv hq
        subst hv
        subst hq
        subst hn
        exact ⟨q0, heq, hreq, rfl, rfl⟩
      · rw [if_neg hn] at hok
        exact absurd hok (by simp)
    · exact absurd hok (by simp)

/-- Witness for C6's amended statement: a one-byte bounded view exactly
consumed by the nested record, with the underlying cursor restored. -/
theorem c6_success_restores_cursor_witness :
    parseRefTag
        [(Field.mk "N" none none none none (.uint 1), .uintV 1 1),
          (Field.mk "Sub" none (some (.ref "N")) none none
            (.struct' [.mk "A" none none none none (.uint 1)]), .structV [.uintV 1 0])]
        "N" = some 1 ∧
    (¬ toInt64 1 = 0) ∧
    (∃ qq : Parser,
      emitReadStruct 10
          { r := Reader.limited (.bytes [5]) (toInt64 1), byteOrder := .little, offset := 1 }
          (.struct' [.mk "A" none none none none (.uint 1)]) =
        .ok (.structV [.uintV 1 5]) qq ∧
        qq.r = .limited (Parser.mk (.bytes []) .little 2).r 0 ∧
        (Parser.mk (.bytes []) .little 2).offset = qq.offset ∧
        (Parser.mk (.bytes []) .little 2).byteOrder = qq.byteOrder) :=
  ⟨rfl, by decide,
    c6_success_restores_cursor 10 ⟨.bytes [5], .little, 1⟩ ⟨.bytes [], .little, 2⟩
      (.struct' [.mk "A" none none none none (.uint 1)]) (.structV [.uintV 1 0])
      (.structV [.uintV 1 5])
      [(Field.mk "N" none none none none (.uint 1), .uintV 1 1),
        (Field.mk "Sub" none (some (.ref "N")) none none
          (.struct' [.mk "A" none none none none (.uint 1)]), .structV [.uintV 1 0])]
      "N" 1 rfl (by decide) rfl⟩

/-- C3 (amended): for a `size`-driven sequence field of variable-size
elements whose tag resolves to extent `m`, a successful decode consumes
exactly `m` bytes from the underlying cursor (the reader advances by
`m` and the offset by `m`) and the field receives the sequence of
elements decoded from exactly that region.  (A region not evenly
divisible into whole elements fails inside the partial element's read
with a truncated-read error, not `SizeMismatch`; see the
counterexample.) -/
theorem c3_size_ref_exact_consumption
    (f i m : Nat) (p q : Parser) (rcd rcd' : List (Field × Value))
    (nm key : String) (esz : Option SzTag) (et : Ty) (u : Nat)
    (hget : rcd[i]? = some (.mk nm none (some (.ref key)) esz none (.slice et), .sliceV []))
    (hvar : sizeofTy et = none)
    (href : parseRefTag rcd key = some u)
    (hm : toInt64 u = (m : Int))
    (hok : readField (f + 2) p rcd i = .ok rcd' q) :
    q.offset = p.offset + m ∧ q.r = (p.r.take m).2 ∧
      ∃ vs, rcd' =
        rcd.set i (.mk nm none (some (.ref key)) esz none (.slice et), .sliceV vs) := by
  have hnneg : ¬ toInt64 u < 0 := by rw [hm]; exact not_lt.mpr (Int.natCast_nonneg m)
  simp only [readField, hget, dispatchField, Field.ty, Field.lenTag, Field.sizeTag,
    Field.elemSizeTag, Field.padTag, href, Option.isSome_none, Option.isSome_some,
    Bool.false_and, Bool.false_eq_true, if_false] at hok
  rw [if_neg hnneg, hm] at hok
  simp only [Int.toNat_natCast] at hok
  by_cases hlen : (((p.r.take m).1).length = m)
  · have hrn : emitReadNBytes p m =
        .ok ((p.r.take m).1) { p with r := (p.r.take m).2, offset := p.offset + m } := by
      simp only [emitReadNBytes, emitReadFull]
      rw [if_pos hlen]
    simp only [hrn] at hok
    by_cases hpos : ((p.r.take m).1).length > 0
    · rw [if_pos hpos] at hok
      split at hok
      · exact absurd hok (by simp)
      · rename_i v q2 heq2
        simp only [calculatePadding, gt_iff_lt, Nat.lt_irrefl, if_false] at hok
        injection hok with h1 h2
        obtain ⟨hr, hoff, vs, hv⟩ :=
          readSliceFromBytes_ok_of_varsize f _ _ _ _ _ hvar heq2
        subst h2
        refine ⟨by rw [hoff], by rw [hr], vs, ?_⟩
        rw [← h1, hv]
    · rw [if_neg hpos] at hok
      simp only [calculatePadding, gt_iff_lt, Nat.lt_irrefl, if_false] at hok
      injection hok with h1 h2
      subst h2
      refine ⟨rfl, rfl, [], ?_⟩
      rw [← h1]
  · have hrn : emitReadNBytes p m = .err .truncatedInput { p with r := (p.r.take m).2 } := by
      simp only [emitReadNBytes, emitReadFull]
      rw [if_neg hlen]
    simp only [hrn] at hok
    exact absurd hok (by simp)

/-- Witness for C3's amended statement: a three-byte region holding
exactly one variable-size element is consumed in full. -/
theorem c3_size_ref_exact_consumption_witness :
    sizeofTy exVarElem = none ∧
    parseRefTag
        [(Field.mk "Size" none none none none (.uint 1), .uintV 1 3),
          (Field.mk "Elems" none (some (.ref "Size")) none none (.slice exVarElem), .sliceV [])]
        "Size" = some 3 ∧
    toInt64 3 = ((3 : Nat) : Int) ∧
    ((Parser.mk (.bytes []) .little 4).offset =
        (Parser.mk (.bytes [2, 0, 0]) .little 1).offset + 3 ∧
      (Parser.mk (.bytes []) .little 4).r =
        ((Parser.mk (.bytes [2, 0, 0]) .little 1).r.take 3).2 ∧
      ∃ vs : List Value,
        ([(Field.mk "Size" none none none none (.uint 1), Value.uintV 1 3),
          (Field.mk "Elems" none (some (.ref "Size")) none none (.slice exVarElem),
            Value.sliceV [Value.structV [Value.uintV 1 2,
              Value.sliceV [Value.uintV 1 0, Value.uintV 1 0]]])]
          : List (Field × Value)) =
        List.set
          [(Field.mk "Size" none none none none (.uint 1), Value.uintV 1 3),
            (Field.mk "Elems" none (some (.ref "Size")) none none (.slice exVarElem),
              Value.sliceV [])]
          1
          (Field.mk "Elems" none (some (.ref "Size")) none none (.slice exVarElem),
            Value.sliceV vs)) :=
  ⟨rfl, rfl, by decide,
    c3_size_ref_exact_consumption 20 1 3 ⟨.bytes [2, 0, 0], .little, 1⟩
      ⟨.bytes [], .little, 4⟩
      [(Field.mk "Size" none none none none (.uint 1), .uintV 1 3),
        (Field.mk "Elems" none (some (.ref "Size")) none none (.slice exVarElem), .sliceV [])]
      [(Field.mk "Size" none none none none (.uint 1), .uintV 1 3),
        (Field.mk "Elems" none (some (.ref "Size")) none none (.slice exVarElem),
          .sliceV [.structV [.uintV 1 2, .sliceV [.uintV 1 0, .uintV 1 0]]])]
      "Elems" "Size" none exVarElem 3 rfl rfl rfl (by decide) rfl⟩

/-- C7 counterexample: a dynamically-sized sequence with neither a `len`
nor a `size` annotation is not a schema error — the decode succeeds,
consumes zero bytes, and leaves the field empty (exactly what the
repository's `TestEmptySlice` expects). -/
theorem c7_untagged_dynamic_slice_succeeds :
    emitReadStruct 20 ⟨.bytes exBuffer, .little, 0⟩ exSchemaC7 =
      .ok (.structV [.sliceV []]) ⟨.bytes exBuffer, .little, 0⟩ ∧
    (emitReadStruct 20 ⟨.bytes exBuffer, .little, 0⟩ exSchemaC7).errOf ≠
      some .schemaError := by
  constructor
  · rfl
  · intro hcontra
    rw [show (emitReadStruct 20 ⟨.bytes exBuffer, .little, 0⟩ exSchemaC7) =
        .ok (.structV [.sliceV []]) ⟨.bytes exBuffer, .little, 0⟩ from rfl] at hcontra
    simp [Res.errOf] at hcontra

end Bingo
